import Mathlib

set_option maxHeartbeats 1000000

/-!
Verification of the image-pipeline components of the GlobMart backend:
the `ProductImage` model's `cdn_url` getter and `beforeCreate` hook
(`src/database/models/ProductImage.js`), the `BunnyCDNService` storage
client (`isConfigured`, `deleteFiles`, `generateProductImageKey`,
`testConnection`), and the `migrate-to-bunny-cdn` batch job.

JavaScript strings are modelled as lists of characters (`Str`).
JavaScript truthiness is modelled explicitly: the empty string is falsy,
`null`/`undefined` is `Option.none`, and for the numeric `||` operator
the number 0 is falsy.
-/

abbrev Str := List Char

def lit (s : String) : Str := s.toList

/-- JavaScript `s.startsWith(pat)`: first argument is the pattern. -/
def strStartsWith : Str → Str → Bool
  | [], _ => true
  | _ :: _, [] => false
  | p :: ps, c :: cs => p == c && strStartsWith ps cs

/-- JavaScript `s.includes(pat)`: substring containment. -/
def strContains (pat : Str) : Str → Bool
  | [] => strStartsWith pat []
  | c :: cs => strStartsWith pat (c :: cs) || strContains pat cs

/-- Split a string at the first occurrence of `pat`, returning the parts
before and after the occurrence, or `none` when `pat` does not occur. -/
def splitFirst (pat : Str) : Str → Option (Str × Str)
  | [] => if strStartsWith pat [] then some ([], []) else none
  | c :: cs =>
      if strStartsWith pat (c :: cs) then some ([], (c :: cs).drop pat.length)
      else
        match splitFirst pat cs with
        | some (b, a) => some (c :: b, a)
        | none => none

/-- JavaScript `s.replace(pat, repl)` with a string pattern: replaces only
the first occurrence. -/
def jsReplaceFirst (pat repl s : Str) : Str :=
  match splitFirst pat s with
  | none => s
  | some (b, a) => b ++ repl ++ a

/-- Fuel-driven worker for `jsSplit`; the fuel is an upper bound on the
number of occurrences of the (non-empty) separator. -/
def jsSplitAux (pat : Str) : Nat → Str → List Str
  | 0, s => [s]
  | n + 1, s =>
      match splitFirst pat s with
      | none => [s]
      | some (b, a) => b :: jsSplitAux pat n a

/-- JavaScript `s.split(pat)` for a non-empty string separator. -/
def jsSplit (pat s : Str) : List Str := jsSplitAux pat (s.length + 1) s

/-- JavaScript `s.split(sep)` for a single-character separator. -/
def strSplitOn (sep : Char) : Str → List Str
  | [] => [[]]
  | c :: cs =>
      if c = sep then [] :: strSplitOn sep cs
      else
        match strSplitOn sep cs with
        | [] => [[c]]
        | h :: t => (c :: h) :: t

/-- JavaScript `parts.join(sep)` for a single-character separator. -/
def strJoin (sep : Char) : List Str → Str
  | [] => []
  | [x] => x
  | x :: y :: t => x ++ sep :: strJoin sep (y :: t)

/-- JavaScript `s.substring(a, b)`: the characters at indices `a ≤ i < b`. -/
def jsSubstring (a b : Nat) (s : Str) : Str := (s.take b).drop a

/-- JavaScript `v || d` for a nullable string `v`: `null`/`undefined` and
the empty string are falsy. -/
def jsOrStr (v : Option Str) (d : Str) : Str :=
  match v with
  | none => d
  | some s => if s == [] then d else s

/-- JavaScript `v || d` for a nullable number `v`: `null` and 0 are falsy. -/
def jsOrInt (v : Option Int) (d : Int) : Int :=
  match v with
  | none => d
  | some x => if x = 0 then d else x

/-- A persisted `product_images` row, restricted to the fields the verified
operations read (`product_id`, `s3_key`, `url`, `position`). -/
structure ImageRecord where
  product_id : Nat
  s3_key : Str
  url : Str
  position : Int
deriving DecidableEq, Repr

/-- Replace the stored `url` of a record, keeping the other fields. -/
def withUrl (r : ImageRecord) (u : Str) : ImageRecord := { r with url := u }

/-- Model method `isPrimary()`: `this.position === 0`. -/
def isPrimary (r : ImageRecord) : Bool := r.position == 0

/-- The placeholder/demo host allowlist checked by the `cdn_url` getter:
`url.includes` over the five listed hosts. -/
def passThroughHost (url : Str) : Bool :=
  strContains (lit "via.placeholder.com") url ||
  strContains (lit "placeholder.com") url ||
  strContains (lit "picsum.photos") url ||
  strContains (lit "unsplash.com") url ||
  strContains (lit "loremflickr.com") url

/-- The current-CDN host check of the `cdn_url` getter. -/
def bunnyHost (url : Str) : Bool :=
  strContains (lit "b-cdn.net") url || strContains (lit "bunnycdn.com") url

/-- The getter's absolute-URL test: `url.startsWith('http://') ||
url.startsWith('https://')`. -/
def isHttpUrl (url : Str) : Bool :=
  strStartsWith (lit "http://") url || strStartsWith (lit "https://") url

/-- The combined condition under which the first block of the `cdn_url`
getter returns the stored `url` unchanged: the url is truthy, absolute
HTTP(S), and matches the pass-through allowlist or the current CDN host. -/
def urlExternalPassThrough (url : Str) : Bool :=
  (url != [] && isHttpUrl url) && (passThroughHost url || bunnyHost url)

/-- The hard-coded fallback CDN base of the getter. -/
def defaultCdnBase : Str := lit "https://prestious.b-cdn.net"

/-- `process.env.STORAGE_SERVER_BASE_URL || 'https://prestious.b-cdn.net'`:
the environment variable is modelled as an `Option Str` parameter. -/
def cdnBase (env : Option Str) : Str := jsOrStr env defaultCdnBase

/-- The path-derivation step of the `cdn_url` getter: extract the part after
`amazonaws.com/` when present, otherwise strip an `s3://bucket/` prefix via
replace/split/slice/join, otherwise use the key verbatim. -/
def imagePathOfKey (s3_key : Str) : Str :=
  if strContains (lit "amazonaws.com/") s3_key then
    let urlParts := jsSplit (lit "amazonaws.com/") s3_key
    if h : 1 < urlParts.length then urlParts[1] else s3_key
  else if strContains (lit "s3://") s3_key then
    strJoin '/' ((strSplitOn '/' (jsReplaceFirst (lit "s3://") [] s3_key)).drop 1)
  else s3_key

/-- The `cdn_url` getter of the `ProductImage` model. The first `if` block
of the source only returns inside its inner conditionals and otherwise
falls through, so it is flattened into the single `urlExternalPassThrough`
guard; the remainder is the `s3_key` branch and the raw-`url` fallback. -/
def cdn_url (env : Option Str) (r : ImageRecord) : Str :=
  if urlExternalPassThrough r.url then r.url
  else if r.s3_key != [] then cdnBase env ++ lit "/" ++ imagePathOfKey r.s3_key
  else r.url

/-- A row to be created: `position` is `none` when the caller does not
provide an explicit position. -/
structure NewImage where
  product_id : Nat
  s3_key : Str
  url : Str
  position : Option Int
deriving DecidableEq, Repr

/-- `ProductImage.max('position', { where: { product_id } })`: the maximum
stored position among the product's rows, `null` (`none`) when the product
has no rows. -/
def maxPosition (db : List ImageRecord) (pid : Nat) : Option Int :=
  ((db.filter (fun r => r.product_id == pid)).map (fun r => r.position)).max?

/-- The `beforeCreate` hook's position assignment: keep an explicit
position; otherwise `(maxPosition || -1) + 1` with JavaScript `||`
semantics (both `null` and 0 are falsy). -/
def beforeCreatePosition (db : List ImageRecord) (img : NewImage) : Int :=
  match img.position with
  | some p => p
  | none => jsOrInt (maxPosition db img.product_id) (-1) + 1

/-- Create one image row: run the `beforeCreate` hook's position
assignment against the current table contents and append the row. -/
def createImage (db : List ImageRecord) (img : NewImage) : List ImageRecord :=
  db ++ [⟨img.product_id, img.s3_key, img.url, beforeCreatePosition db img⟩]

/-- The three environment-derived settings read by the `BunnyCDNService`
constructor (`STORAGE_URL`, `STORAGE_SERVER_BASE_URL`,
`STORAGE_SERVER_ACCESS_KEY`); `none` models an unset variable. -/
structure BunnyConfig where
  storageUrl : Option Str
  serverBaseUrl : Option Str
  accessKey : Option Str
deriving DecidableEq, Repr

/-- JavaScript truthiness of a nullable string. -/
def truthyOpt : Option Str → Bool
  | none => false
  | some s => s != []

/-- `isConfigured()`: `!!(this.storageUrl && this.serverBaseUrl &&
this.accessKey)`. -/
def isConfigured (c : BunnyConfig) : Bool :=
  truthyOpt c.storageUrl && truthyOpt c.serverBaseUrl && truthyOpt c.accessKey

/-- The character class `[a-zA-Z0-9-_]` kept by the filename sanitizer. -/
def allowedKeyChar (c : Char) : Bool :=
  c.isAlpha || c.isDigit || c == '-' || c == '_'

/-- One step of `replace(<non-alnum regex>, '_')` applied globally: a
character outside `[a-zA-Z0-9-_]` becomes an underscore. -/
def sanitizeKeyChar (c : Char) : Char :=
  if allowedKeyChar c then c else '_'

/-- `filename.replace(<dot-extension regex>, '')`: remove a final
dot-initiated run of one or more characters none of which is a slash or a
dot; such a run can only start at the last dot of the string. -/
def jsStripExtension (s : Str) : Str :=
  let revTail := s.reverse.takeWhile (fun c => !(c == '/') && !(c == '.'))
  match s.reverse.drop revTail.length with
  | '.' :: _ => if revTail == [] then s else (s.reverse.drop (revTail.length + 1)).reverse
  | _ => s

/-- Decimal rendering of a number interpolated into a template literal. -/
def natToStr (n : Nat) : Str := (Nat.repr n).toList

/-- `generateProductImageKey(productId, size, extension, filename)`. The
impure inputs are passed explicitly: `timestamp` models `Date.now()` and
`rand36` models the string `Math.random().toString(36)`, of which the
code keeps `substring(2, 8)`. -/
def generateProductImageKey (productId : Nat) (size extension : Str)
    (filename : Option Str) (timestamp : Nat) (rand36 : Str) : Str :=
  let randomId := jsSubstring 2 8 rand36
  match filename with
  | some fn =>
      let baseFilename := jsStripExtension fn
      let sanitizedFilename := baseFilename.map sanitizeKeyChar
      lit "products/" ++ natToStr productId ++ lit "/images/" ++ size ++ lit "/" ++
        sanitizedFilename ++ lit "_" ++ natToStr timestamp ++ lit "_" ++ randomId ++
        lit "." ++ extension
  | none =>
      lit "products/" ++ natToStr productId ++ lit "/images/" ++ size ++ lit "/" ++
        lit "image" ++ lit "_" ++ natToStr timestamp ++ lit "_" ++ randomId ++
        lit "." ++ extension

/-- The key shape stated by the design document:
`products/{productId}/images/{sizeVariant}/{base}_{timestamp}_{suffix}.{extension}`. -/
def keyShapeSpec (productId : Nat) (size extension base : Str)
    (timestamp : Nat) (suffix : Str) : Str :=
  lit "products/" ++ natToStr productId ++ lit "/images/" ++ size ++ lit "/" ++
    base ++ lit "_" ++ natToStr timestamp ++ lit "_" ++ suffix ++
    lit "." ++ extension

/-- The base-name part of the key: the sanitized original filename, or the
literal `image` when no filename is given. -/
def sanitizedBase : Option Str → Str
  | some fn => (jsStripExtension fn).map sanitizeKeyChar
  | none => lit "image"

/-- Result shape of `deleteFiles`: the keys whose delete succeeded, and
`(key, error message)` pairs for the keys whose delete threw. -/
structure DeleteFilesResult where
  successful : List Str
  failed : List (Str × Str)
deriving DecidableEq, Repr

/-- `deleteFiles(keys)`: sequential per-key deletion; each `deleteFile`
call is modelled by the oracle `del`, whose `error` case carries the
thrown message; a failure is recorded and the loop continues. -/
def deleteFiles (del : Str → Except Str Unit) : List Str → DeleteFilesResult
  | [] => ⟨[], []⟩
  | k :: ks =>
      let rest := deleteFiles del ks
      match del k with
      | Except.ok _ => ⟨k :: rest.successful, rest.failed⟩
      | Except.error e => ⟨rest.successful, (k, e) :: rest.failed⟩

/-- An image row as seen by the migration job (only the owning product
matters to the job's counts). -/
structure MigRow where
  product_id : Nat
deriving DecidableEq, Repr

/-- The external-world outcomes observed by one run of the migration job:
the service configuration, the result of the storage probe, and the
results of the smoke-test upload and delete. -/
structure MigEnv where
  cfg : BunnyConfig
  probeOk : Bool
  uploadOk : Bool
  deleteOk : Bool
deriving DecidableEq, Repr

/-- `testConnection()`: reports failure when unconfigured, otherwise the
outcome of the HTTP list probe. -/
def testConnection (env : MigEnv) : Bool :=
  if isConfigured env.cfg then env.probeOk else false

/-- The observable actions the migration job can perform, in particular
the database reads (`countImages`, `countProducts`, `sample`), the
database mutation (`purge`) and the storage writes (`upload`,
`deleteKey`). -/
inductive MigAction where
  | checkConfig
  | testConn
  | countImages
  | countProducts
  | sample
  | purge
  | upload (key : Str)
  | deleteKey (key : Str)
deriving DecidableEq, Repr

/-- How one run of the migration job ends. -/
inductive MigOutcome where
  | notConfigured
  | connectionFailed
  | alreadyClean
  | completed
  | migrationFailed
deriving DecidableEq, Repr

/-- Final state of one run: the image table contents, the outcome, and
the trace of actions performed, in order. -/
structure MigResult where
  db : List MigRow
  outcome : MigOutcome
  trace : List MigAction
deriving DecidableEq, Repr

/-- The fixed key used by the smoke test. -/
def migrationTestKey : Str := lit "migration-test/connection-test.png"

/-- The `migrateToBunnyCDN` script: check configuration, probe the
storage endpoint, count rows (returning early on an empty table), sample,
hard-delete all rows, re-count, then smoke-test an upload and a delete of
the test key; a smoke-test failure is caught by the outer handler after
the purge has already happened. -/
def migrateToBunnyCDN (env : MigEnv) (db : List MigRow) : MigResult :=
  if isConfigured env.cfg = false then
    ⟨db, MigOutcome.notConfigured, [MigAction.checkConfig]⟩
  else if testConnection env = false then
    ⟨db, MigOutcome.connectionFailed, [MigAction.checkConfig, MigAction.testConn]⟩
  else if db.length = 0 then
    ⟨db, MigOutcome.alreadyClean,
      [MigAction.checkConfig, MigAction.testConn, MigAction.countImages,
       MigAction.countProducts]⟩
  else if env.uploadOk = false then
    ⟨[], MigOutcome.migrationFailed,
      [MigAction.checkConfig, MigAction.testConn, MigAction.countImages,
       MigAction.countProducts, MigAction.sample, MigAction.purge,
       MigAction.countImages, MigAction.countProducts,
       MigAction.upload migrationTestKey]⟩
  else if env.deleteOk = false then
    ⟨[], MigOutcome.migrationFailed,
      [MigAction.checkConfig, MigAction.testConn, MigAction.countImages,
       MigAction.countProducts, MigAction.sample, MigAction.purge,
       MigAction.countImages, MigAction.countProducts,
       MigAction.upload migrationTestKey, MigAction.deleteKey migrationTestKey]⟩
  else
    ⟨[], MigOutcome.completed,
      [MigAction.checkConfig, MigAction.testConn, MigAction.countImages,
       MigAction.countProducts, MigAction.sample, MigAction.purge,
       MigAction.countImages, MigAction.countProducts,
       MigAction.upload migrationTestKey, MigAction.deleteKey migrationTestKey]⟩

/-- Presence of a required setting: the variable is set and non-empty. -/
def presentNonEmpty (o : Option Str) : Prop := ∃ s, o = some s ∧ s ≠ []

/-- Whether the modelled `deleteFile` call succeeds on a key. -/
def delOkB (del : Str → Except Str Unit) (k : Str) : Bool :=
  match del k with
  | Except.ok _ => true
  | Except.error _ => false

/-- The `(key, error message)` entry produced for a failing key, `none`
for a succeeding one. -/
def delErr (del : Str → Except Str Unit) (k : Str) : Option (Str × Str) :=
  match del k with
  | Except.ok _ => none
  | Except.error e => some (k, e)

/-- Actions that mutate the database or write to storage: the purge and
the smoke-test upload/delete. -/
def isMutatingOrWrite : MigAction → Bool
  | MigAction.purge => true
  | MigAction.upload _ => true
  | MigAction.deleteKey _ => true
  | _ => false

/-- Three images created for product 1 on an empty table, each with no
explicit position, in creation order. -/
def productImagesAfterThreeCreates : List ImageRecord :=
  let d1 := createImage [] ⟨1, lit "k1", lit "https://img.example/1.png", none⟩
  let d2 := createImage d1 ⟨1, lit "k2", lit "https://img.example/2.png", none⟩
  createImage d2 ⟨1, lit "k3", lit "https://img.example/3.png", none⟩

/-- Claim C1. The code's behaviour at the claim's own scenario: for a
fresh product with no image records, creating three images without an
explicit position assigns position 0 to all three (not 0, 1, 2), because
`(maxPosition || -1) + 1` treats a stored maximum of 0 as falsy; the
first created image does satisfy `isPrimary()`. -/
theorem c1_positions_all_zero :
    productImagesAfterThreeCreates.map (fun r => r.position) = [0, 0, 0] ∧
    productImagesAfterThreeCreates.map (fun r => r.position) ≠ [0, 1, 2] ∧
    productImagesAfterThreeCreates.map isPrimary = [true, true, true] := by
  decide

/-- Claim C3. For every record whose stored `url` is an absolute HTTP(S)
URL matching the pass-through host allowlist, the `cdn_url` getter returns
exactly the stored `url`, for every CDN base configuration. -/
theorem cdn_url_passthrough_identity (env : Option Str) (r : ImageRecord)
    (hhttp : isHttpUrl r.url = true) (hpass : passThroughHost r.url = true) :
    cdn_url env r = r.url := by
  have hne : r.url ≠ [] := by
    intro h
    rw [h] at hhttp
    exact absurd hhttp (by decide)
  have hguard : urlExternalPassThrough r.url = true := by
    simp [urlExternalPassThrough, hhttp, hpass, bne_iff_ne, hne]
  simp [cdn_url, hguard]

/-- Witness for claim C3 at a concrete picsum.photos record. -/
theorem cdn_url_passthrough_identity_witness :
    isHttpUrl (lit "https://picsum.photos/200") = true ∧
    passThroughHost (lit "https://picsum.photos/200") = true ∧
    cdn_url none ⟨1, lit "products/1/a.png", lit "https://picsum.photos/200", 0⟩
      = lit "https://picsum.photos/200" :=
  ⟨by decide, by decide,
    cdn_url_passthrough_identity none ⟨1, lit "products/1/a.png", lit "https://picsum.photos/200", 0⟩
      (by decide) (by decide)⟩

/-- Claim C5. `isConfigured()` is true exactly when all three settings
(storage base URL, public base URL, access credential) are present and
non-empty; in particular it is false in each of the seven combinations
with at least one setting empty or missing. -/
theorem isConfigured_iff_all_present (c : BunnyConfig) :
    isConfigured c = true ↔
      presentNonEmpty c.storageUrl ∧ presentNonEmpty c.serverBaseUrl ∧
        presentNonEmpty c.accessKey := by
  obtain ⟨su, sb, ak⟩ := c
  cases su <;> cases sb <;> cases ak <;>
    simp [isConfigured, truthyOpt, presentNonEmpty, bne_iff_ne, and_assoc]

/-- Claim C7. `deleteFiles` partitions its input keys by outcome: the
successful list is exactly the keys whose delete succeeded, in input
order; the failed list is exactly the `(key, error message)` pairs of the
keys whose delete threw, in input order; and every input key lands in
exactly one of the two lists, so a single failure never aborts the
remaining deletions. -/
theorem deleteFiles_partition (del : Str → Except Str Unit) (keys : List Str) :
    (deleteFiles del keys).successful = keys.filter (delOkB del) ∧
    (deleteFiles del keys).failed = keys.filterMap (delErr del) ∧
    (deleteFiles del keys).successful.length + (deleteFiles del keys).failed.length
      = keys.length := by
  induction keys with
  | nil => simp [deleteFiles]
  | cons k ks ih =>
      obtain ⟨ih1, ih2, ih3⟩ := ih
      rw [ih1, ih2] at ih3
      cases hdk : del k <;>
        simp [deleteFiles, hdk, delOkB, delErr, List.filter_cons, List.filterMap_cons,
          ih1, ih2] <;>
        omega

/-- Claim C8. Whenever the service is configured but the storage probe
reports failure, the migration job aborts at the connection test: the
database is left unchanged and neither the inventory counts nor the purge
(nor any later phase) is executed. -/
theorem migrate_probe_fail (env : MigEnv) (db : List MigRow)
    (hc : isConfigured env.cfg = true) (hp : env.probeOk = false) :
    (migrateToBunnyCDN env db).db = db ∧
    (migrateToBunnyCDN env db).outcome = MigOutcome.connectionFailed ∧
    MigAction.countImages ∉ (migrateToBunnyCDN env db).trace ∧
    MigAction.countProducts ∉ (migrateToBunnyCDN env db).trace ∧
    MigAction.purge ∉ (migrateToBunnyCDN env db).trace := by
  simp [migrateToBunnyCDN, testConnection, hc, hp]

/-- Witness for claim C8: a configured environment whose probe fails,
over a one-row table. -/
theorem migrate_probe_fail_witness :
    isConfigured (BunnyConfig.mk (some (lit "https://sz.example")) (some (lit "https://cdn.example")) (some (lit "key"))) = true ∧
    ((migrateToBunnyCDN ⟨⟨some (lit "https://sz.example"), some (lit "https://cdn.example"), some (lit "key")⟩, false, true, true⟩ [⟨7⟩]).db = [⟨7⟩] ∧
      (migrateToBunnyCDN ⟨⟨some (lit "https://sz.example"), some (lit "https://cdn.example"), some (lit "key")⟩, false, true, true⟩ [⟨7⟩]).outcome = MigOutcome.connectionFailed ∧
      MigAction.countImages ∉ (migrateToBunnyCDN ⟨⟨some (lit "https://sz.example"), some (lit "https://cdn.example"), some (lit "key")⟩, false, true, true⟩ [⟨7⟩]).trace ∧
      MigAction.countProducts ∉ (migrateToBunnyCDN ⟨⟨some (lit "https://sz.example"), some (lit "https://cdn.example"), some (lit "key")⟩, false, true, true⟩ [⟨7⟩]).trace ∧
      MigAction.purge ∉ (migrateToBunnyCDN ⟨⟨some (lit "https://sz.example"), some (lit "https://cdn.example"), some (lit "key")⟩, false, true, true⟩ [⟨7⟩]).trace) :=
  ⟨by decide, migrate_probe_fail _ _ (by decide) rfl⟩

/-- Claim C9. Whenever the service is configured, the probe succeeds and
the image table is empty, the migration job terminates successfully at
the inventory step: the table is left unchanged and the trace contains no
purge and no storage write (no smoke-test upload or delete). -/
theorem migrate_empty_clean (env : MigEnv)
    (hc : isConfigured env.cfg = true) (hp : env.probeOk = true) :
    (migrateToBunnyCDN env []).db = [] ∧
    (migrateToBunnyCDN env []).outcome = MigOutcome.alreadyClean ∧
    ((migrateToBunnyCDN env []).trace.all fun a => !isMutatingOrWrite a) = true := by
  simp [migrateToBunnyCDN, testConnection, hc, hp, isMutatingOrWrite]

/-- Witness for claim C9: a configured environment with a successful
probe, over the empty table. -/
theorem migrate_empty_clean_witness :
    isConfigured (BunnyConfig.mk (some (lit "https://sz.example")) (some (lit "https://cdn.example")) (some (lit "key"))) = true ∧
    ((migrateToBunnyCDN ⟨⟨some (lit "https://sz.example"), some (lit "https://cdn.example"), some (lit "key")⟩, true, true, true⟩ []).db = [] ∧
      (migrateToBunnyCDN ⟨⟨some (lit "https://sz.example"), some (lit "https://cdn.example"), some (lit "key")⟩, true, true, true⟩ []).outcome = MigOutcome.alreadyClean ∧
      ((migrateToBunnyCDN ⟨⟨some (lit "https://sz.example"), some (lit "https://cdn.example"), some (lit "key")⟩, true, true, true⟩ []).trace.all fun a => !isMutatingOrWrite a) = true) :=
  ⟨by decide, migrate_empty_clean _ (by decide) rfl⟩

/-- Claim C4. The URL resolver is idempotent: feeding the resolved URL
back into the record as its stored `url` and resolving again yields the
same result, for every record and every CDN base configuration. -/
theorem cdn_url_idempotent (env : Option Str) (r : ImageRecord) :
    cdn_url env (withUrl r (cdn_url env r)) = cdn_url env r := by
  by_cases h1 : urlExternalPassThrough r.url = true
  · simp [cdn_url, withUrl, h1]
  · by_cases h2 : (r.s3_key != []) = true
    · by_cases h3 :
        urlExternalPassThrough (cdnBase env ++ lit "/" ++ imagePathOfKey r.s3_key) = true <;>
        simp [cdn_url, withUrl, h1, h2, h3]
    · simp [cdn_url, withUrl, h1, h2]

/-- Claim C6, amended. For all inputs, `generateProductImageKey` returns
exactly the documented shape
`products/{productId}/images/{size}/{base}_{timestamp}_{suffix}.{extension}`,
where the base is the sanitized filename (original extension stripped,
every character outside `[a-zA-Z0-9-_]` replaced by an underscore) or the
literal `image` when no filename is given, and where the random suffix is
`substring(2, 8)` of the stringified random value — hence at most, but
not always exactly, 6 characters long. -/
theorem generateKey_shape (pid : Nat) (size ext : Str) (fn : Option Str)
    (ts : Nat) (rand : Str) :
    generateProductImageKey pid size ext fn ts rand
        = keyShapeSpec pid size ext (sanitizedBase fn) ts (jsSubstring 2 8 rand) ∧
      (jsSubstring 2 8 rand).length ≤ 6 ∧
      (sanitizedBase fn).all allowedKeyChar = true := by
  refine ⟨by cases fn <;> rfl, ?_, ?_⟩
  · simp only [jsSubstring, List.length_drop, List.length_take]
    omega
  · cases fn with
    | none => decide
    | some f =>
        rw [sanitizedBase, List.all_eq_true]
        intro c hc
        rw [List.mem_map] at hc
        obtain ⟨a, _, rfl⟩ := hc
        rw [sanitizeKeyChar]
        split
        · assumption
        · decide

/-- Counterexample for claim C6 as stated: `Math.random()` can return
0.5, whose base-36 rendering is the three-character string `0.i`, so the
kept `substring(2, 8)` is the single character `i` and the generated key
admits no decomposition of the claimed shape with a 6-character random
suffix. -/
theorem c6_counterexample :
    ¬ ∃ suffix : Str, suffix.length = 6 ∧
      generateProductImageKey 1 (lit "thumb") (lit "png") none 0 (lit "0.i")
        = keyShapeSpec 1 (lit "thumb") (lit "png") (lit "image") 0 suffix := by
  rintro ⟨suffix, h6, heq⟩
  have hlen := congrArg List.length heq
  simp only [keyShapeSpec, List.length_append, h6] at hlen
  exact absurd hlen (by decide)

/-- A string starts with itself followed by anything. -/
theorem strStartsWith_append (p rest : Str) :
    strStartsWith p (p ++ rest) = true := by
  induction p with
  | nil => rfl
  | cons c cs ih => simp [strStartsWith, ih]

/-- A prefix occurrence is found by `splitFirst` at position zero. -/
theorem splitFirst_of_startsWith (pat s : Str)
    (h : strStartsWith pat s = true) :
    splitFirst pat s = some ([], s.drop pat.length) := by
  cases s with
  | nil =>
      cases pat with
      | nil => rfl
      | cons p ps => simp [strStartsWith] at h
  | cons c cs => simp [splitFirst, h]

/-- A string contains any of its prefixes. -/
theorem strContains_of_startsWith (pat s : Str)
    (h : strStartsWith pat s = true) :
    strContains pat s = true := by
  cases s with
  | nil => simpa [strContains] using h
  | cons c cs => simp [strContains, h]

/-- Splitting never yields an empty list of parts. -/
theorem strSplitOn_ne_nil (sep : Char) (s : Str) : strSplitOn sep s ≠ [] := by
  cases s with
  | nil => simp [strSplitOn]
  | cons c cs =>
      by_cases h : c = sep
      · simp [strSplitOn, h]
      · rcases hsp : strSplitOn sep cs with _ | ⟨hh, tt⟩ <;>
          simp [strSplitOn, h, hsp]

/-- Splitting a string of the form `b ++ sep :: rest` where `b` is free of
the separator peels off `b` as the first part. -/
theorem strSplitOn_append (sep : Char) (b rest : Str) (hb : sep ∉ b) :
    strSplitOn sep (b ++ sep :: rest) = b :: strSplitOn sep rest := by
  induction b with
  | nil => simp [strSplitOn]
  | cons c b2 ih =>
      have hc : ¬ c = sep := by
        intro h
        exact hb (by simp [h])
      have hb2 : sep ∉ b2 := fun h => hb (List.mem_cons_of_mem _ h)
      simp only [List.cons_append, strSplitOn, if_neg hc, List.append_eq, ih hb2]

/-- Joining the parts of a split reproduces the original string. -/
theorem strJoin_strSplitOn (sep : Char) (s : Str) :
    strJoin sep (strSplitOn sep s) = s := by
  induction s with
  | nil => rfl
  | cons c cs ih =>
      rcases hsp : strSplitOn sep cs with _ | ⟨hh, tt⟩
      · exact absurd hsp (strSplitOn_ne_nil sep cs)
      · rw [hsp] at ih
        by_cases h : c = sep
        · subst h
          simp only [strSplitOn, if_pos rfl, hsp, strJoin]
          cases tt <;> simpa [strJoin] using ih
        · simp only [strSplitOn, if_neg h, hsp]
          cases tt <;> simpa [strJoin] using congrArg (fun t => c :: t) ih

/-- Claim C2, amended. For every record whose `storageKey` has the legacy
`s3://bucket/path` form (bucket free of slashes) and does not contain the
substring `amazonaws.com/`, and whose stored `url` does not already match
the resolver's earlier pass-through/CDN-host branches, the resolver
returns the current CDN base joined with a single `/` to the path
obtained by stripping the `s3://` scheme and the bucket segment. -/
theorem cdn_url_legacy_s3 (env : Option Str) (pid : Nat) (pos : Int)
    (url bucket path : Str)
    (hurl : urlExternalPassThrough url = false)
    (hb : '/' ∉ bucket)
    (hamz : strContains (lit "amazonaws.com/")
        (lit "s3://" ++ bucket ++ lit "/" ++ path) = false) :
    cdn_url env ⟨pid, lit "s3://" ++ bucket ++ lit "/" ++ path, url, pos⟩
      = cdnBase env ++ lit "/" ++ path := by
  have hassoc : lit "s3://" ++ bucket ++ lit "/" ++ path
      = lit "s3://" ++ (bucket ++ '/' :: path) := by
    rw [List.append_assoc, List.append_assoc,
      show lit "/" = ['/'] from rfl, List.singleton_append]
  have hsw : strStartsWith (lit "s3://") (lit "s3://" ++ (bucket ++ '/' :: path)) = true :=
    strStartsWith_append _ _
  have hcont : strContains (lit "s3://") (lit "s3://" ++ (bucket ++ '/' :: path)) = true :=
    strContains_of_startsWith _ _ hsw
  have hrepl : jsReplaceFirst (lit "s3://") [] (lit "s3://" ++ (bucket ++ '/' :: path))
      = bucket ++ '/' :: path := by
    simp [jsReplaceFirst, splitFirst_of_startsWith _ _ hsw, List.drop_left]
  have hamz2 : strContains (lit "amazonaws.com/")
      (lit "s3://" ++ (bucket ++ '/' :: path)) = false := by
    rw [← hassoc]
    exact hamz
  have hpath : imagePathOfKey (lit "s3://" ++ (bucket ++ '/' :: path)) = path := by
    simp only [imagePathOfKey, hamz2, Bool.false_eq_true, if_false, hcont, if_true,
      hrepl, strSplitOn_append '/' bucket path hb, List.drop_succ_cons, List.drop_zero]
    exact strJoin_strSplitOn '/' path
  have hne : ((lit "s3://" ++ (bucket ++ '/' :: path)) != []) = true := by
    simp [lit]
  rw [hassoc]
  simp [cdn_url, hurl, hne, hpath]

/-- Witness for the amended claim C2 at a concrete legacy record. -/
theorem cdn_url_legacy_s3_witness :
    urlExternalPassThrough (lit "legacy-url") = false ∧
    '/' ∉ lit "mybucket" ∧
    strContains (lit "amazonaws.com/")
      (lit "s3://" ++ lit "mybucket" ++ lit "/" ++ lit "products/9/a.png") = false ∧
    cdn_url none ⟨9, lit "s3://" ++ lit "mybucket" ++ lit "/" ++ lit "products/9/a.png",
        lit "legacy-url", 0⟩
      = cdnBase none ++ lit "/" ++ lit "products/9/a.png" :=
  ⟨by decide, by decide, by decide,
    cdn_url_legacy_s3 none 9 0 (lit "legacy-url") (lit "mybucket") (lit "products/9/a.png")
      (by decide) (by decide) (by decide)⟩

/-- Counterexample for claim C2 as stated. Three records with a
legacy-shaped `storageKey` on which the resolver does not return the
CDN base joined with the scheme-and-bucket-stripped path: a record whose
stored `url` matches the pass-through allowlist is returned as-is; a
`gs://bucket/path` key is used verbatim (only the `s3://` scheme is
stripped); and a key containing `amazonaws.com/` is handled by the
amazonaws branch instead of bucket stripping. -/
theorem c2_counterexample :
    (cdn_url none ⟨1, lit "s3://bucket/path", lit "https://via.placeholder.com/150", 0⟩
        = lit "https://via.placeholder.com/150" ∧
      lit "https://via.placeholder.com/150" ≠ defaultCdnBase ++ lit "/" ++ lit "path") ∧
    (cdn_url none ⟨2, lit "gs://bucket/path", lit "legacy-url", 0⟩
        = defaultCdnBase ++ lit "/" ++ lit "gs://bucket/path" ∧
      defaultCdnBase ++ lit "/" ++ lit "gs://bucket/path"
        ≠ defaultCdnBase ++ lit "/" ++ lit "path") ∧
    (cdn_url none ⟨3, lit "s3://bucket/amazonaws.com/path", lit "legacy-url", 0⟩
        = defaultCdnBase ++ lit "/" ++ lit "path" ∧
      defaultCdnBase ++ lit "/" ++ lit "path"
        ≠ defaultCdnBase ++ lit "/" ++ lit "amazonaws.com/path") := by
  decide
